import Mathlib

/-!
Verification of the CRM application's core data model and operations.

The source is a single Python module driving a form UI over a flat JSON
document `{"clients": [...]}`.  We shallowly embed the parts of the code the
specification speaks about:

* a `JValue` type of JSON values together with the Python semantics of
  `x in v` (key membership for dicts, element membership for lists,
  substring test for strings, `TypeError` otherwise) and of truthiness;
* the Record Store: `load_data` and the coercion step of `save_data`;
* the module-level healing loop that fills missing client fields;
* the structured client/task/note records and the handlers that mutate
  them (update, delete, add-note, delete-task);
* the task-list priority sort (`sorted` with a key function is a stable
  sort by that key; we embed it as stable insertion sort) and the
  dashboard status aggregation.
-/

/-- JSON values as produced by Python's `json.load`. -/
inductive JValue where
  | jnull : JValue
  | jbool : Bool → JValue
  | jnum : Int → JValue
  | jstr : String → JValue
  | jarr : List JValue → JValue
  | jobj : List (String × JValue) → JValue

/-- Python truthiness of a JSON value (`bool(v)`). -/
def pyTruthy : JValue → Bool
  | .jnull => false
  | .jbool b => b
  | .jnum n => n != 0
  | .jstr s => s != ""
  | .jarr xs => !xs.isEmpty
  | .jobj fs => !fs.isEmpty

/-- Does the character list `hay` start with `needle`? -/
def charsStartWith : List Char → List Char → Bool
  | [], _ => true
  | _ :: _, [] => false
  | a :: as, b :: bs => a == b && charsStartWith as bs

/-- Python substring test `needle in hay` on character lists. -/
def charsContain (needle : List Char) : List Char → Bool
  | [] => needle.isEmpty
  | c :: cs => charsStartWith needle (c :: cs) || charsContain needle cs

/-- Is the JSON value equal (as a Python value) to the string `s`? -/
def jIsStr (s : String) : JValue → Bool
  | .jstr t => s == t
  | _ => false

/-- Does some element of the list equal the string `s`? -/
def jListHasStr (s : String) : List JValue → Bool
  | [] => false
  | v :: vs => jIsStr s v || jListHasStr s vs

/-- Does the association list have key `k`? -/
def jObjHasKey (k : String) : List (String × JValue) → Bool
  | [] => false
  | (k', _) :: rest => k' == k || jObjHasKey k rest

/-- The only runtime error our embedding of the Python code can hit. -/
inductive PyErr where
  | typeError : PyErr
deriving DecidableEq

/-- Python `s in v` for a string `s` and a JSON value `v`: key membership
for dicts, element membership for lists, substring test for strings, and a
`TypeError` for numbers, booleans and `None`. -/
def pyContains (s : String) : JValue → Except PyErr Bool
  | .jobj fs => .ok (jObjHasKey s fs)
  | .jarr xs => .ok (jListHasStr s xs)
  | .jstr t => .ok (charsContain s.data t.data)
  | .jnum _ => .error .typeError
  | .jbool _ => .error .typeError
  | .jnull => .error .typeError

/-- The document `{"clients": []}` the code falls back to. -/
def emptyDoc : JValue := .jobj [("clients", .jarr [])]

/-- The state of the backing file `crm_data.json`: absent, present but not
valid JSON, or present with a parsed JSON value. -/
inductive FileState where
  | absent : FileState
  | invalid : String → FileState
  | valid : JValue → FileState

/-- `load_data`: returns `{"clients": []}` when the file is absent or fails
to parse; otherwise resets to `{"clients": []}` exactly when
`"clients" not in data`, a test that raises `TypeError` on numbers,
booleans and `None`. -/
def load_data : FileState → Except PyErr JValue
  | .absent => .ok emptyDoc
  | .invalid _ => .ok emptyDoc
  | .valid j =>
    match pyContains "clients" j with
    | .error e => .error e
    | .ok true => .ok j
    | .ok false => .ok emptyDoc

/-- The coercion step of `save_data`: replace the document by
`{"clients": []}` exactly when `"clients" not in data`.  The returned value
is what `json.dump` then writes. -/
def save_coerce : JValue → Except PyErr JValue
  | j =>
    match pyContains "clients" j with
    | .error e => .error e
    | .ok true => .ok j
    | .ok false => .ok emptyDoc

/-- A raw client record as stored in the document: a Python dict. -/
abbrev PyDict := List (String × JValue)

/-- First value bound to key `k`, if any (Python `client[k]`). -/
def lookupKey (k : String) : PyDict → Option JValue
  | [] => none
  | (k', v) :: rest => if k' = k then some v else lookupKey k rest

/-- Python `k in client`. -/
def containsKey (k : String) (d : PyDict) : Bool := (lookupKey k d).isSome

/-- Python `client[k] = v`: replace the binding if present, else append. -/
def setKey (k : String) (v : JValue) : PyDict → PyDict
  | [] => [(k, v)]
  | (k', v') :: rest => if k' = k then (k, v) :: rest else (k', v') :: setKey k v rest

/-- `str(uuid.uuid4())[:8]`: the first 8 characters of a uuid string. -/
def mintId (u : String) : String := ⟨u.data.take 8⟩

/-- One step of the healing loop: `if k not in client: client[k] = v`. -/
def ensureKey (k : String) (v : JValue) (d : PyDict) : PyDict :=
  if containsKey k d then d else setKey k v d

/-- The id step of the healing loop:
`if "id" not in client or not client["id"]: client["id"] = str(uuid.uuid4())[:8]`. -/
def ensureId (fresh : String) (d : PyDict) : PyDict :=
  match lookupKey "id" d with
  | some v => if pyTruthy v then d else setKey "id" (.jstr fresh) d
  | none => setKey "id" (.jstr fresh) d

/-- The module-level healing loop applied to one client dict, with `today`
the current date string and `u` the uuid string drawn for this client. -/
def healClient (today u : String) (c : PyDict) : PyDict :=
  ensureKey "tags" (.jarr [])
    (ensureKey "follow_up_date" (.jstr "")
      (ensureId (mintId u)
        (ensureKey "source" (.jstr "Direct")
          (ensureKey "value" (.jnum 0)
            (ensureKey "date_added" (.jstr today) c)))))

/-- A task nested in a client, as created by the add-task form (the name
`Task` is taken by the Lean core library). -/
structure CrmTask where
  task : String
  completed : Bool
  priority : String
  due_date : String
  created_at : String
deriving DecidableEq, Repr

/-- A note nested in a client, as created by the add-note form. -/
structure Note where
  text : String
  date : String
  id : String
deriving DecidableEq, Repr

/-- A client record after healing: all fields present. -/
structure Client where
  id : String
  name : String
  phone : String
  email : String
  status : String
  value : Int
  source : String
  tags : List String
  date_added : String
  follow_up_date : String
  tasks : List CrmTask
  notes : List Note
deriving DecidableEq, Repr

/-- Error kinds named by the specification for failed operations. -/
inductive CrmErr where
  | notFound : CrmErr
  | conflict : CrmErr
deriving DecidableEq

/-- The Delete-Client handler: the delete button's body runs only when the
typed confirmation equals the selected client's name; it then keeps every
client whose id differs from the selected id and persists.  A mismatched
confirmation leaves the collection untouched (the spec's `Conflict`). -/
def deleteClient (clients : List Client) (selId confirm : String) :
    Except CrmErr (List Client) :=
  match clients.find? (fun c => c.id == selId) with
  | none => .error .notFound
  | some sel =>
    if confirm == sel.name then .ok (clients.filter (fun c => c.id != selId))
    else .error .conflict

/-- Fields written by the Edit-Client form's update handler. -/
structure UpdateFields where
  name : String
  phone : String
  email : String
  status : String
  value : Int
  source : String
  tags : List String
  follow_up_date : String
deriving DecidableEq, Repr

/-- The eight assignments of the update handler; `id`, `date_added`,
`tasks` and `notes` are not touched. -/
def applyUpdate (c : Client) (u : UpdateFields) : Client :=
  { c with
    name := u.name
    phone := u.phone
    email := u.email
    status := u.status
    value := u.value
    source := u.source
    tags := u.tags
    follow_up_date := u.follow_up_date }

/-- Rewrite the first element satisfying `p` (Python mutates the object
returned by `next(...)`, the first match). -/
def updateFirst (p : α → Bool) (f : α → α) : List α → List α
  | [] => []
  | x :: xs => if p x then f x :: xs else x :: updateFirst p f xs

/-- The Edit-Client update handler on the collection: mutate the first
client with the selected id in place. -/
def updateClient (clients : List Client) (selId : String) (u : UpdateFields) :
    List Client :=
  updateFirst (fun c => c.id == selId) (fun c => applyUpdate c u) clients

/-- The note built by the add-note handler: text, `now` timestamp, and
`str(uuid.uuid4())[:8]` as id. -/
def mkNote (text now u : String) : Note := ⟨text, now, mintId u⟩

/-- The add-note handler on the selected client: the form body runs only
for truthy (non-empty) text and inserts the new note at position 0. -/
def addNote (c : Client) (text now u : String) : Client :=
  if text = "" then c else { c with notes := mkNote text now u :: c.notes }

/-- The delete-task button handler: from the flattened entry it recovers
only the client id and the task DESCRIPTION, then pops the first task of
that client whose description equals it. -/
def deleteTaskCode (clients : List Client) (clientId desc : String) :
    List Client :=
  updateFirst (fun c => c.id == clientId)
    (fun c =>
      match c.tasks.findIdx? (fun t => t.task == desc) with
      | some i => { c with tasks := c.tasks.eraseIdx i }
      | none => c)
    clients

/-- A flattened task entry as built in `all_tasks` for the Tasks tab. -/
structure TaskEntry where
  client_id : String
  client_name : String
  task : String
  completed : Bool
  due_date : String
  priority : String
deriving DecidableEq, Repr

/-- The sort key for `task_sort == "Priority"`:
`priority_order.get(x.get("priority", "Medium"), 1)` with
`{"High": 0, "Medium": 1, "Low": 2}`. -/
def priorityVal (p : String) : Nat :=
  if p = "High" then 0 else if p = "Medium" then 1 else if p = "Low" then 2 else 1

/-- Stable insertion of `x` into `l` by a numeric key: `x` goes before the
first element whose key is at least `key x`. -/
def keyInsert (key : α → Nat) (x : α) : List α → List α
  | [] => [x]
  | y :: ys => if key x ≤ key y then x :: y :: ys else y :: keyInsert key x ys

/-- Python's `sorted(l, key=key)` is a stable sort by `key`; insertion
sort realizes exactly that specification. -/
def keySort (key : α → Nat) : List α → List α
  | [] => []
  | x :: xs => keyInsert key x (keySort key xs)

/-- The Tasks-tab priority sort of the flattened task list. -/
def sortTasksByPriority (l : List TaskEntry) : List TaskEntry :=
  keySort (fun t => priorityVal t.priority) l

/-- Dashboard: number of clients whose status is exactly `s`. -/
def countStatus (s : String) (clients : List Client) : Nat :=
  (clients.filter (fun c => c.status == s)).length

/-- Dashboard status breakdown: the `status_counts` dict has exactly the
three keys `Lead`, `Active`, `Inactive`. -/
def statusCounts (clients : List Client) : List (String × Nat) :=
  [("Lead", countStatus "Lead" clients),
   ("Active", countStatus "Active" clients),
   ("Inactive", countStatus "Inactive" clients)]

/-- Is the JSON value an array? -/
def isJArr : JValue → Bool
  | .jarr _ => true
  | _ => false

/-- A minimal healed client record for concrete instances. -/
def baseClient (i n : String) : Client :=
  { id := i, name := n, phone := "555-0000", email := "c@x.com", status := "Lead",
    value := 0, source := "Direct", tags := [], date_added := "2024-01-01",
    follow_up_date := "", tasks := [], notes := [] }

/-- A concrete client whose status lies outside the recognized enumeration. -/
def prospectClient : Client :=
  { baseClient "pc000001" "Pat" with status := "Prospect" }

/-- Two distinct tasks sharing one description. -/
def dupTaskHigh : CrmTask :=
  { task := "dup", completed := false, priority := "High",
    due_date := "2024-01-03", created_at := "2024-01-01" }

def dupTaskLow : CrmTask :=
  { task := "dup", completed := false, priority := "Low",
    due_date := "2024-01-02", created_at := "2024-01-01" }

/-- A client holding the two duplicate-description tasks. -/
def dupClient : Client :=
  { baseClient "cid00001" "Dana" with tasks := [dupTaskHigh, dupTaskLow] }

/-- Concrete form input for the update handler. -/
def sampleUpdate : UpdateFields :=
  { name := "Robin", phone := "555-0002", email := "r@x.com", status := "Active",
    value := 5000, source := "Referral", tags := ["VIP"],
    follow_up_date := "2024-02-02" }

/-! ## Lemmas about the raw-dict operations -/

theorem lookupKey_setKey_same (k : String) (v : JValue) (d : PyDict) :
    lookupKey k (setKey k v d) = some v := by
  induction d with
  | nil => simp [setKey, lookupKey]
  | cons p rest ih =>
    obtain ⟨k', v'⟩ := p
    by_cases h : k' = k
    · simp [setKey, h, lookupKey]
    · simp [setKey, h, lookupKey, ih]

theorem lookupKey_setKey_other {k k' : String} (h : k ≠ k') (v : JValue) (d : PyDict) :
    lookupKey k (setKey k' v d) = lookupKey k d := by
  induction d with
  | nil => simp [setKey, lookupKey, Ne.symm h]
  | cons p rest ih =>
    obtain ⟨a, b⟩ := p
    by_cases ha : a = k'
    · subst ha
      simp [setKey, lookupKey, Ne.symm h]
    · simp [setKey, ha, lookupKey, ih]

theorem lookupKey_ensureKey_other {k k' : String} (h : k ≠ k') (v : JValue) (d : PyDict) :
    lookupKey k (ensureKey k' v d) = lookupKey k d := by
  unfold ensureKey
  by_cases hc : containsKey k' d
  · simp [hc]
  · simp [hc, lookupKey_setKey_other h]

theorem containsKey_ensureKey_other {k k' : String} (h : k ≠ k') (v : JValue) (d : PyDict) :
    containsKey k (ensureKey k' v d) = containsKey k d := by
  unfold containsKey
  rw [lookupKey_ensureKey_other h]

theorem lookupKey_ensureKey_missing {k : String} {d : PyDict} (h : containsKey k d = false)
    (v : JValue) : lookupKey k (ensureKey k v d) = some v := by
  unfold ensureKey
  rw [h]
  simp [lookupKey_setKey_same]

theorem lookupKey_ensureId_other {k : String} (h : k ≠ "id") (fresh : String) (d : PyDict) :
    lookupKey k (ensureId fresh d) = lookupKey k d := by
  unfold ensureId
  cases hl : lookupKey "id" d with
  | none => simp [lookupKey_setKey_other h]
  | some v =>
    by_cases ht : pyTruthy v
    · simp [ht]
    · simp [ht, lookupKey_setKey_other h]

theorem containsKey_ensureId_other {k : String} (h : k ≠ "id") (fresh : String) (d : PyDict) :
    containsKey k (ensureId fresh d) = containsKey k d := by
  unfold containsKey
  rw [lookupKey_ensureId_other h]

theorem lookupKey_ensureId_missing {d : PyDict} (h : lookupKey "id" d = none)
    (fresh : String) : lookupKey "id" (ensureId fresh d) = some (.jstr fresh) := by
  unfold ensureId
  rw [h]
  simp [lookupKey_setKey_same]

theorem lookupKey_ensureId_falsy {d : PyDict} {v : JValue} (h : lookupKey "id" d = some v)
    (hv : pyTruthy v = false) (fresh : String) :
    lookupKey "id" (ensureId fresh d) = some (.jstr fresh) := by
  unfold ensureId
  rw [h]
  simp [hv, lookupKey_setKey_same]

theorem mintId_length {u : String} (h : 8 ≤ u.length) : (mintId u).length = 8 := by
  have : (mintId u).length = (u.data.take 8).length := rfl
  rw [this, List.length_take]
  have hu : u.length = u.data.length := rfl
  omega

theorem mintId_ne_empty {u : String} (h : 8 ≤ u.length) : mintId u ≠ "" := by
  intro he
  have := mintId_length h
  rw [he] at this
  simp [String.length] at this

/-! ## Lemmas about the stable key sort -/

theorem mem_keyInsert (key : α → Nat) (x z : α) (l : List α) :
    z ∈ keyInsert key x l ↔ z = x ∨ z ∈ l := by
  induction l with
  | nil => simp [keyInsert]
  | cons y ys ih =>
    by_cases h : key x ≤ key y
    · simp [keyInsert, h]
    · simp [keyInsert, h, ih]
      tauto

theorem keyInsert_pairwise (key : α → Nat) (x : α) {l : List α}
    (hl : l.Pairwise (fun a b => key a ≤ key b)) :
    (keyInsert key x l).Pairwise (fun a b => key a ≤ key b) := by
  induction l with
  | nil => simp [keyInsert]
  | cons y ys ih =>
    rcases List.pairwise_cons.mp hl with ⟨hy, hys⟩
    by_cases h : key x ≤ key y
    · rw [keyInsert, if_pos h]
      refine List.pairwise_cons.mpr ⟨?_, hl⟩
      intro z hz
      rcases List.mem_cons.mp hz with hz | hz
      · exact hz ▸ h
      · exact le_trans h (hy z hz)
    · rw [keyInsert, if_neg h]
      refine List.pairwise_cons.mpr ⟨?_, ih hys⟩
      intro z hz
      rcases (mem_keyInsert key x z ys).mp hz with hz | hz
      · exact hz ▸ le_of_not_le h
      · exact hy z hz

theorem keySort_pairwise (key : α → Nat) (l : List α) :
    (keySort key l).Pairwise (fun a b => key a ≤ key b) := by
  induction l with
  | nil => simp [keySort]
  | cons x xs ih => exact keyInsert_pairwise key x ih

theorem keyInsert_perm (key : α → Nat) (x : α) (l : List α) :
    List.Perm (keyInsert key x l) (x :: l) := by
  induction l with
  | nil => simp [keyInsert]
  | cons y ys ih =>
    by_cases h : key x ≤ key y
    · simp [keyInsert, h]
    · rw [keyInsert, if_neg h]
      exact (ih.cons y).trans (List.Perm.swap x y ys)

theorem keySort_perm (key : α → Nat) (l : List α) :
    List.Perm (keySort key l) l := by
  induction l with
  | nil => simp [keySort]
  | cons x xs ih =>
    exact (keyInsert_perm key x (keySort key xs)).trans (ih.cons x)

theorem keyInsert_filter_pos (key : α → Nat) {x : α} {k : Nat} (h : key x = k)
    (l : List α) :
    (keyInsert key x l).filter (fun z => key z == k)
      = x :: l.filter (fun z => key z == k) := by
  induction l with
  | nil => simp [keyInsert, List.filter_cons, h]
  | cons y ys ih =>
    by_cases hle : key x ≤ key y
    · rw [keyInsert, if_pos hle]
      simp [List.filter_cons, h]
    · have hy : (key y == k) = false := by
        have hlt : key y < key x := lt_of_not_le hle
        have hne : key y ≠ k := by omega
        simp [hne]
      rw [keyInsert, if_neg hle]
      simp [List.filter_cons, hy, ih]

theorem keyInsert_filter_neg (key : α → Nat) {x : α} {k : Nat} (h : key x ≠ k)
    (l : List α) :
    (keyInsert key x l).filter (fun z => key z == k)
      = l.filter (fun z => key z == k) := by
  induction l with
  | nil => simp [keyInsert, List.filter_cons, h]
  | cons y ys ih =>
    by_cases hle : key x ≤ key y
    · rw [keyInsert, if_pos hle]
      simp [List.filter_cons, h]
    · rw [keyInsert, if_neg hle]
      simp [List.filter_cons, ih]

theorem keySort_filter (key : α → Nat) (k : Nat) (l : List α) :
    (keySort key l).filter (fun z => key z == k)
      = l.filter (fun z => key z == k) := by
  induction l with
  | nil => simp [keySort]
  | cons x xs ih =>
    by_cases h : key x = k
    · rw [keySort, keyInsert_filter_pos key h, ih, List.filter_cons]
      simp [h]
    · rw [keySort, keyInsert_filter_neg key h, ih, List.filter_cons]
      simp [h]

/-! ## Lemmas about first-match operations on the client list -/

theorem find?_append_first (p : Client → Bool) {l1 : List Client} (sel : Client)
    (l2 : List Client) (h1 : ∀ c ∈ l1, p c = false) (hsel : p sel = true) :
    (l1 ++ sel :: l2).find? p = some sel := by
  induction l1 with
  | nil => simp [List.find?, hsel]
  | cons a l ih =>
    have ha : p a = false := h1 a (by simp)
    simp only [List.cons_append, List.find?, ha]
    exact ih (fun c hc => h1 c (by simp [hc]))

theorem filter_append_middle (p : Client → Bool) {l1 l2 : List Client} (sel : Client)
    (h1 : ∀ c ∈ l1, p c = true) (h2 : ∀ c ∈ l2, p c = true) (hsel : p sel = false) :
    (l1 ++ sel :: l2).filter p = l1 ++ l2 := by
  rw [List.filter_append]
  rw [List.filter_eq_self.mpr h1]
  simp only [List.filter, hsel]
  rw [List.filter_eq_self.mpr h2]

theorem updateFirst_append (p : Client → Bool) {l1 : List Client} (f : Client → Client)
    (sel : Client) (l2 : List Client) (h1 : ∀ c ∈ l1, p c = false)
    (hsel : p sel = true) :
    updateFirst p f (l1 ++ sel :: l2) = l1 ++ f sel :: l2 := by
  induction l1 with
  | nil => simp [updateFirst, hsel]
  | cons a l ih =>
    have ha : p a = false := h1 a (by simp)
    simp only [List.cons_append, updateFirst, ha]
    simp only [Bool.false_eq_true, if_false, List.cons.injEq, true_and]
    exact ih (fun c hc => h1 c (by simp [hc]))

theorem lookupKey_eq_none_of_not_contains {k : String} {d : PyDict}
    (h : containsKey k d = false) : lookupKey k d = none := by
  unfold containsKey at h
  cases hl : lookupKey k d with
  | none => rfl
  | some v => rw [hl] at h; simp at h

theorem ensureId_truthy {d : PyDict} {fresh : String} (hf : fresh ≠ "") :
    ∃ w, lookupKey "id" (ensureId fresh d) = some w ∧ pyTruthy w = true := by
  cases hl : lookupKey "id" d with
  | none =>
    refine ⟨.jstr fresh, ?_, by simp [pyTruthy, hf]⟩
    simp [ensureId, hl, lookupKey_setKey_same]
  | some v =>
    rcases Bool.eq_false_or_eq_true (pyTruthy v) with ht | ht
    · refine ⟨v, ?_, ht⟩
      simp [ensureId, hl, ht]
    · refine ⟨.jstr fresh, ?_, by simp [pyTruthy, hf]⟩
      simp [ensureId, hl, ht, lookupKey_setKey_same]

theorem countStatus_cons (s : String) (c : Client) (cs : List Client) :
    countStatus s (c :: cs)
      = (if c.status = s then 1 else 0) + countStatus s cs := by
  by_cases h : c.status = s <;>
    simp [countStatus, List.filter_cons, h, Nat.add_comm]

/-! ## The claims -/

/-- C1: the specification says load never fails, and the code's own comment
says it always returns a valid dictionary; yet a backing file holding the
valid JSON document `5` makes `"clients" not in data` raise `TypeError`.
Absent and unparsable files do yield the empty document. -/
theorem load_data_fails_on_numeric_document :
    load_data (.valid (.jnum 5)) = .error .typeError
    ∧ load_data .absent = .ok emptyDoc
    ∧ load_data (.invalid "not json") = .ok emptyDoc :=
  ⟨rfl, rfl, rfl⟩

/-- C2: the healing loop fills every missing field of {date_added, value,
source, id, follow_up_date, tags} with the documented default: today's
date, 0, "Direct", a freshly minted 8-character id, "" and []. -/
theorem healClient_defaults (c : PyDict) (today u : String) (h8 : 8 ≤ u.length) :
    (containsKey "date_added" c = false →
      lookupKey "date_added" (healClient today u c) = some (.jstr today))
    ∧ (containsKey "value" c = false →
      lookupKey "value" (healClient today u c) = some (.jnum 0))
    ∧ (containsKey "source" c = false →
      lookupKey "source" (healClient today u c) = some (.jstr "Direct"))
    ∧ (containsKey "id" c = false →
      lookupKey "id" (healClient today u c) = some (.jstr (mintId u))
        ∧ (mintId u).length = 8)
    ∧ (containsKey "follow_up_date" c = false →
      lookupKey "follow_up_date" (healClient today u c) = some (.jstr ""))
    ∧ (containsKey "tags" c = false →
      lookupKey "tags" (healClient today u c) = some (.jarr [])) := by
  refine ⟨?_, ?_, ?_, ?_, ?_, ?_⟩ <;> intro h
  · unfold healClient
    rw [lookupKey_ensureKey_other (show ("date_added" : String) ≠ "tags" from by decide),
        lookupKey_ensureKey_other (show ("date_added" : String) ≠ "follow_up_date" from by decide),
        lookupKey_ensureId_other (show ("date_added" : String) ≠ "id" from by decide),
        lookupKey_ensureKey_other (show ("date_added" : String) ≠ "source" from by decide),
        lookupKey_ensureKey_other (show ("date_added" : String) ≠ "value" from by decide)]
    exact lookupKey_ensureKey_missing h _
  · unfold healClient
    rw [lookupKey_ensureKey_other (show ("value" : String) ≠ "tags" from by decide),
        lookupKey_ensureKey_other (show ("value" : String) ≠ "follow_up_date" from by decide),
        lookupKey_ensureId_other (show ("value" : String) ≠ "id" from by decide),
        lookupKey_ensureKey_other (show ("value" : String) ≠ "source" from by decide)]
    refine lookupKey_ensureKey_missing ?_ _
    rw [containsKey_ensureKey_other (show ("value" : String) ≠ "date_added" from by decide)]
    exact h
  · unfold healClient
    rw [lookupKey_ensureKey_other (show ("source" : String) ≠ "tags" from by decide),
        lookupKey_ensureKey_other (show ("source" : String) ≠ "follow_up_date" from by decide),
        lookupKey_ensureId_other (show ("source" : String) ≠ "id" from by decide)]
    refine lookupKey_ensureKey_missing ?_ _
    rw [containsKey_ensureKey_other (show ("source" : String) ≠ "value" from by decide),
        containsKey_ensureKey_other (show ("source" : String) ≠ "date_added" from by decide)]
    exact h
  · refine ⟨?_, mintId_length h8⟩
    unfold healClient
    rw [lookupKey_ensureKey_other (show ("id" : String) ≠ "tags" from by decide),
        lookupKey_ensureKey_other (show ("id" : String) ≠ "follow_up_date" from by decide)]
    refine lookupKey_ensureId_missing ?_ _
    rw [lookupKey_ensureKey_other (show ("id" : String) ≠ "source" from by decide),
        lookupKey_ensureKey_other (show ("id" : String) ≠ "value" from by decide),
        lookupKey_ensureKey_other (show ("id" : String) ≠ "date_added" from by decide)]
    exact lookupKey_eq_none_of_not_contains h
  · unfold healClient
    rw [lookupKey_ensureKey_other (show ("follow_up_date" : String) ≠ "tags" from by decide)]
    refine lookupKey_ensureKey_missing ?_ _
    rw [containsKey_ensureId_other (show ("follow_up_date" : String) ≠ "id" from by decide),
        containsKey_ensureKey_other (show ("follow_up_date" : String) ≠ "source" from by decide),
        containsKey_ensureKey_other (show ("follow_up_date" : String) ≠ "value" from by decide),
        containsKey_ensureKey_other (show ("follow_up_date" : String) ≠ "date_added" from by decide)]
    exact h
  · unfold healClient
    refine lookupKey_ensureKey_missing ?_ _
    rw [containsKey_ensureKey_other (show ("tags" : String) ≠ "follow_up_date" from by decide),
        containsKey_ensureId_other (show ("tags" : String) ≠ "id" from by decide),
        containsKey_ensureKey_other (show ("tags" : String) ≠ "source" from by decide),
        containsKey_ensureKey_other (show ("tags" : String) ≠ "value" from by decide),
        containsKey_ensureKey_other (show ("tags" : String) ≠ "date_added" from by decide)]
    exact h

theorem healClient_defaults_witness :
    lookupKey "date_added" (healClient "2024-06-01" "0123456789ab" [])
      = some (.jstr "2024-06-01")
    ∧ lookupKey "value" (healClient "2024-06-01" "0123456789ab" []) = some (.jnum 0)
    ∧ lookupKey "source" (healClient "2024-06-01" "0123456789ab" [])
      = some (.jstr "Direct")
    ∧ (lookupKey "id" (healClient "2024-06-01" "0123456789ab" [])
        = some (.jstr (mintId "0123456789ab"))
      ∧ (mintId "0123456789ab").length = 8)
    ∧ lookupKey "follow_up_date" (healClient "2024-06-01" "0123456789ab" [])
      = some (.jstr "")
    ∧ lookupKey "tags" (healClient "2024-06-01" "0123456789ab" [])
      = some (.jarr []) := by
  have h := healClient_defaults [] "2024-06-01" "0123456789ab" (by decide)
  exact ⟨h.1 rfl, h.2.1 rfl, h.2.2.1 rfl, h.2.2.2.1 rfl, h.2.2.2.2.1 rfl,
    h.2.2.2.2.2 rfl⟩

/-- C10: an id that is present but falsy (for instance the empty string) is
re-minted exactly like a missing one, and after healing every client has a
truthy (non-empty) id. -/
theorem healClient_id_nonempty (c : PyDict) (today u : String) (h8 : 8 ≤ u.length) :
    (∀ v, lookupKey "id" c = some v → pyTruthy v = false →
      lookupKey "id" (healClient today u c) = some (.jstr (mintId u)))
    ∧ ∃ w, lookupKey "id" (healClient today u c) = some w ∧ pyTruthy w = true := by
  constructor
  · intro v hv hfalse
    unfold healClient
    rw [lookupKey_ensureKey_other (show ("id" : String) ≠ "tags" from by decide),
        lookupKey_ensureKey_other (show ("id" : String) ≠ "follow_up_date" from by decide)]
    refine lookupKey_ensureId_falsy ?_ hfalse _
    rw [lookupKey_ensureKey_other (show ("id" : String) ≠ "source" from by decide),
        lookupKey_ensureKey_other (show ("id" : String) ≠ "value" from by decide),
        lookupKey_ensureKey_other (show ("id" : String) ≠ "date_added" from by decide)]
    exact hv
  · unfold healClient
    simp only [lookupKey_ensureKey_other (show ("id" : String) ≠ "tags" from by decide),
      lookupKey_ensureKey_other (show ("id" : String) ≠ "follow_up_date" from by decide)]
    exact ensureId_truthy (mintId_ne_empty h8)

theorem healClient_id_nonempty_witness :
    lookupKey "id" (healClient "2024-06-01" "0123456789ab" [("id", .jstr "")])
      = some (.jstr (mintId "0123456789ab")) := by
  have h := healClient_id_nonempty [("id", .jstr "")] "2024-06-01" "0123456789ab"
    (by decide)
  exact h.1 (.jstr "") rfl rfl

/-- C3: with the wrong confirmation name the delete handler fails and the
collection is untouched; with the exact name it removes precisely the
selected client (its nested tasks and notes going with it) and keeps every
other client. -/
theorem deleteClient_confirmation (l1 l2 : List Client) (sel : Client)
    (confirm : String) (h1 : ∀ c ∈ l1, c.id ≠ sel.id)
    (h2 : ∀ c ∈ l2, c.id ≠ sel.id) :
    (confirm ≠ sel.name →
      deleteClient (l1 ++ sel :: l2) sel.id confirm = .error .conflict)
    ∧ (confirm = sel.name →
      deleteClient (l1 ++ sel :: l2) sel.id confirm = .ok (l1 ++ l2)) := by
  have hfind : (l1 ++ sel :: l2).find? (fun c => c.id == sel.id) = some sel :=
    find?_append_first (fun c => c.id == sel.id) sel l2
      (fun c hc => by simp [h1 c hc]) (by simp)
  constructor
  · intro hne
    have hcond : (confirm == sel.name) = false := by simp [hne]
    simp [deleteClient, hfind, hcond]
  · intro heq
    have hcond : (confirm == sel.name) = true := by simp [heq]
    have hfilter : (l1 ++ sel :: l2).filter (fun c => c.id != sel.id) = l1 ++ l2 :=
      filter_append_middle (fun c => c.id != sel.id) sel
        (fun c hc => by simp [h1 c hc]) (fun c hc => by simp [h2 c hc]) (by simp)
    simp [deleteClient, hfind, hcond, hfilter]

theorem deleteClient_confirmation_witness :
    deleteClient [baseClient "a1000001" "Ann", baseClient "b2000002" "Bob"]
        "b2000002" "Bob"
      = .ok [baseClient "a1000001" "Ann"] := by
  have h := deleteClient_confirmation [baseClient "a1000001" "Ann"] []
    (baseClient "b2000002" "Bob") "Bob" (by decide) (by decide)
  exact h.2 rfl

/-- C4: the delete-task handler resolves the clicked entry by DESCRIPTION,
not by position: with two tasks sharing description "dup", deleting the
flattened entry built from the task at position 1 removes the task at
position 0 instead (positional deletion, shown alongside, would have kept
position 0 and dropped position 1). -/
theorem deleteTask_removes_first_match :
    deleteTaskCode [dupClient] "cid00001" "dup"
      = [{ dupClient with tasks := [dupTaskLow] }]
    ∧ List.eraseIdx [dupTaskHigh, dupTaskLow] 1 = [dupTaskHigh]
    ∧ dupTaskHigh ≠ dupTaskLow := by
  refine ⟨by decide, rfl, by decide⟩

/-- C5: the Tasks-tab priority sort orders entries by nondecreasing key
(High = 0 before Medium = 1 before Low = 2), permutes its input, and is
stable: entries sharing a priority key keep their relative order. -/
theorem prioritySort_sorted_stable (l : List TaskEntry) :
    (sortTasksByPriority l).Pairwise
      (fun a b => priorityVal a.priority ≤ priorityVal b.priority)
    ∧ List.Perm (sortTasksByPriority l) l
    ∧ ∀ k : Nat,
        (sortTasksByPriority l).filter (fun t => priorityVal t.priority == k)
          = l.filter (fun t => priorityVal t.priority == k) :=
  ⟨keySort_pairwise _ l, keySort_perm _ l, fun k => keySort_filter _ k l⟩

/-- C6: adding note A then note B to one client leaves B at position 0 and
A at position 1, and the fresh note carries the first 8 characters of its
uuid (an 8-character id) and the creation timestamp. -/
theorem addNote_prepends (c : Client) (tA dA uA tB dB uB : String)
    (hA : tA ≠ "") (hB : tB ≠ "") (h8 : 8 ≤ uB.length) :
    (addNote (addNote c tA dA uA) tB dB uB).notes[0]? = some (mkNote tB dB uB)
    ∧ (addNote (addNote c tA dA uA) tB dB uB).notes[1]? = some (mkNote tA dA uA)
    ∧ (mkNote tB dB uB).id.length = 8
    ∧ (mkNote tB dB uB).date = dB := by
  refine ⟨?_, ?_, mintId_length h8, rfl⟩ <;> simp [addNote, hA, hB]

theorem addNote_prepends_witness :
    (addNote (addNote (baseClient "a1000001" "Ann") "hello" "2024-01-01 10:00"
        "u0000001x") "world" "2024-01-02 11:00" "u0000002y").notes[0]?
      = some (mkNote "world" "2024-01-02 11:00" "u0000002y")
    ∧ (addNote (addNote (baseClient "a1000001" "Ann") "hello" "2024-01-01 10:00"
        "u0000001x") "world" "2024-01-02 11:00" "u0000002y").notes[1]?
      = some (mkNote "hello" "2024-01-01 10:00" "u0000001x")
    ∧ (mkNote "world" "2024-01-02 11:00" "u0000002y").id.length = 8 := by
  have h := addNote_prepends (baseClient "a1000001" "Ann") "hello"
    "2024-01-01 10:00" "u0000001x" "world" "2024-01-02 11:00" "u0000002y"
    (by decide) (by decide) (by decide)
  exact ⟨h.1, h.2.1, h.2.2.1⟩

/-- C7: updating a client overwrites exactly the eight form fields, keeps
its id and date_added, and leaves every other client in the collection
unchanged. -/
theorem updateClient_frame (l1 l2 : List Client) (sel : Client) (u : UpdateFields)
    (h1 : ∀ c ∈ l1, c.id ≠ sel.id) :
    updateClient (l1 ++ sel :: l2) sel.id u = l1 ++ applyUpdate sel u :: l2
    ∧ (applyUpdate sel u).id = sel.id
    ∧ (applyUpdate sel u).date_added = sel.date_added
    ∧ (applyUpdate sel u).tasks = sel.tasks
    ∧ (applyUpdate sel u).notes = sel.notes
    ∧ (applyUpdate sel u).name = u.name
    ∧ (applyUpdate sel u).phone = u.phone
    ∧ (applyUpdate sel u).email = u.email
    ∧ (applyUpdate sel u).status = u.status
    ∧ (applyUpdate sel u).value = u.value
    ∧ (applyUpdate sel u).source = u.source
    ∧ (applyUpdate sel u).tags = u.tags
    ∧ (applyUpdate sel u).follow_up_date = u.follow_up_date := by
  refine ⟨?_, rfl, rfl, rfl, rfl, rfl, rfl, rfl, rfl, rfl, rfl, rfl, rfl⟩
  unfold updateClient
  exact updateFirst_append (fun c => c.id == sel.id) (fun c => applyUpdate c u)
    sel l2 (fun c hc => by simp [h1 c hc]) (by simp)

theorem updateClient_frame_witness :
    updateClient [baseClient "a1000001" "Ann", baseClient "b2000002" "Bob"]
        "b2000002" sampleUpdate
      = [baseClient "a1000001" "Ann",
         applyUpdate (baseClient "b2000002" "Bob") sampleUpdate]
    ∧ (applyUpdate (baseClient "b2000002" "Bob") sampleUpdate).id = "b2000002" := by
  have h := updateClient_frame [baseClient "a1000001" "Ann"] []
    (baseClient "b2000002" "Bob") sampleUpdate (by decide)
  exact ⟨h.1, h.2.1⟩

/-- C8 counterexample: one client with the unrecognized status "Prospect":
all three per-status counts are 0 although there is 1 client, and the
status breakdown has no "unknown" key, so the per-status counts do not
account for every client. -/
theorem statusCounts_no_unknown_cex :
    countStatus "Lead" [prospectClient] + countStatus "Active" [prospectClient]
        + countStatus "Inactive" [prospectClient] = 0
    ∧ List.length [prospectClient] = 1
    ∧ (statusCounts [prospectClient]).map Prod.fst = ["Lead", "Active", "Inactive"]
    ∧ "unknown" ∉ (statusCounts [prospectClient]).map Prod.fst := by decide

/-- C8 amended: the dashboard aggregation tolerates unknown statuses
without failing but simply drops them: the three per-status counts sum to
the number of clients whose status is recognized, and the breakdown's keys
are exactly Lead, Active, Inactive — there is no "unknown" bucket. -/
theorem statusCounts_recognized_only (clients : List Client) :
    countStatus "Lead" clients + countStatus "Active" clients
        + countStatus "Inactive" clients
      = (clients.filter (fun c => c.status == "Lead" || c.status == "Active"
          || c.status == "Inactive")).length
    ∧ (statusCounts clients).map Prod.fst = ["Lead", "Active", "Inactive"] := by
  refine ⟨?_, rfl⟩
  induction clients with
  | nil => rfl
  | cons c cs ih =>
    rw [countStatus_cons, countStatus_cons, countStatus_cons, List.filter_cons]
    by_cases hL : c.status = "Lead" <;> by_cases hA : c.status = "Active" <;>
      by_cases hI : c.status = "Inactive" <;> simp_all <;> omega

/-- C9 counterexample: a document whose clients field holds the number 42
(not a sequence) is written UNCHANGED by save's coercion step, so the
persisted document does not always hold a clients sequence. -/
theorem save_coerce_nonsequence_cex :
    save_coerce (.jobj [("clients", .jnum 42)])
      = .ok (.jobj [("clients", .jnum 42)])
    ∧ isJArr (.jnum 42) = false :=
  ⟨rfl, rfl⟩

/-- C9 amended: save's coercion keys only on PRESENCE of the clients key:
an object without the key is replaced by the empty-client document before
writing, and an object with the key is written as-is, whatever the field
holds. -/
theorem save_coerce_key_presence (fs : List (String × JValue)) :
    (jObjHasKey "clients" fs = false → save_coerce (.jobj fs) = .ok emptyDoc)
    ∧ (jObjHasKey "clients" fs = true → save_coerce (.jobj fs) = .ok (.jobj fs)) := by
  constructor <;> intro h <;> simp [save_coerce, pyContains, h]

theorem save_coerce_key_presence_witness :
    save_coerce (.jobj []) = .ok emptyDoc :=
  (save_coerce_key_presence []).1 rfl
